import Mathlib

/-!
Verification development for the retail-flows RTAT fetcher
(src/retail-flows/__main__.py).

The Python source is shallowly embedded:
* calendar dates are modelled by `Date` (year/month/day) together with the
  proleptic-Gregorian ordinal `Date.toOrdinal`, exactly as CPython's
  `datetime` module computes it (`_ymd2ord`); `weekday` is Monday = 0;
* the generator `daily` is modelled as a fuel-indexed loop whose fuel
  `t1 + 1 - t0` bounds the number of iterations of the Python `while`
  loop (each iteration advances `t` by at least one day);
* the sqlite table `rtat` is a list of `Rec`s in rowid order; `INSERT OR
  REPLACE` removes the row with the conflicting `(date, ticker)` key and
  appends the fresh row;
* Python exceptions are values of `PyErr`; fallible code returns
  `Except PyErr _`.  Dynamic parts of exception message strings are elided.
-/

set_option maxRecDepth 4000

/-- Gregorian leap-year test, as in CPython `datetime._is_leap`. -/
def isLeap (y : Nat) : Bool :=
  y % 4 == 0 && (y % 100 != 0 || y % 400 == 0)

/-- Days in a month, as in CPython `datetime._days_in_month`. -/
def daysInMonth (y m : Nat) : Nat :=
  if m = 2 then (if isLeap y then 29 else 28)
  else if m = 4 ∨ m = 6 ∨ m = 9 ∨ m = 11 then 30
  else 31

/-- Days in the year strictly before month `m`
(CPython `datetime._days_before_month`). -/
def daysBeforeMonth (y m : Nat) : Nat :=
  (List.range (m - 1)).foldl (fun a i => a + daysInMonth y (i + 1)) 0

/-- A calendar date at day granularity.  `Row` dates parsed with
`strptime(_, %Y-%m-%d)` carry a zero time-of-day, so day granularity is
faithful for every value this program stores. -/
structure Date where
  year : Nat
  month : Nat
  day : Nat
deriving DecidableEq, Repr

/-- Proleptic-Gregorian ordinal (1 = 0001-01-01), as in CPython
`datetime._ymd2ord`. -/
def Date.toOrdinal (d : Date) : Nat :=
  let py := d.year - 1
  py * 365 + py / 4 - py / 100 + py / 400 + daysBeforeMonth d.year d.month + d.day

/-- `datetime.weekday()` on an ordinal: Monday = 0 … Sunday = 6.
Ordinal 1 (0001-01-01) is a Monday. -/
def weekday (t : Nat) : Nat :=
  (t + 6) % 7

/-- `t0` of the source: the time RTAT data is available from,
`datetime(2016, 1, 15)`. -/
def t0Date : Date := ⟨2016, 1, 15⟩

/-- One iteration step of the `daily` while-loop, run on ordinals with a
fuel that bounds the remaining iterations.  Mirrors

    while t <= t1:
        weekday = t.weekday()
        if weekday == 5 or weekday == 6:
            t += timedelta(days=7 - weekday)
        yield t
        t += timedelta(days=1)
-/
def dailyGo (t1 : Nat) : Nat → Nat → List Nat
  | 0, _ => []
  | fuel + 1, t =>
    if t ≤ t1 then
      let w := weekday t
      let tAdj := if w = 5 ∨ w = 6 then t + (7 - w) else t
      tAdj :: dailyGo t1 fuel (tAdj + 1)
    else []

/-- The generator `daily(t0, t1)` of the source, on ordinals.  Each loop
iteration advances `t` by at least one day, so `t1 + 1 - t0` iterations
suffice; the Python generator raises nothing and yields nothing when
`t0 > t1`. -/
def daily (t0 t1 : Nat) : List Nat :=
  dailyGo t1 (t1 + 1 - t0) t0

/-- Bounds and weekend-freeness of every element the loop body emits,
for any fuel. -/
theorem dailyGo_mem_bounds (t1 : Nat) :
    ∀ fuel t x, x ∈ dailyGo t1 fuel t →
      t ≤ x ∧ x ≤ t1 + 2 ∧ weekday x ≠ 5 ∧ weekday x ≠ 6 := by
  intro fuel
  induction fuel with
  | zero => intro t x hx; simp [dailyGo] at hx
  | succ n ih =>
    intro t x hx
    by_cases hle : t ≤ t1
    · simp only [dailyGo, if_pos hle, List.mem_cons] at hx
      rcases hx with rfl | hx
      · refine ⟨?_, ?_, ?_, ?_⟩ <;>
          · simp only [weekday] at *
            split <;> omega
      · have h2 := ih _ _ hx
        have hadj : t ≤ (if weekday t = 5 ∨ weekday t = 6 then t + (7 - weekday t) else t) := by
          split <;> omega
        exact ⟨by omega, h2.2.1, h2.2.2.1, h2.2.2.2⟩
    · simp [dailyGo, if_neg hle] at hx

/-- The emitted sequence is strictly increasing, for any fuel. -/
theorem dailyGo_pairwise (t1 : Nat) :
    ∀ fuel t, List.Pairwise (· < ·) (dailyGo t1 fuel t) := by
  intro fuel
  induction fuel with
  | zero => intro t; simp [dailyGo]
  | succ n ih =>
    intro t
    by_cases hle : t ≤ t1
    · simp only [dailyGo, if_pos hle]
      refine List.pairwise_cons.mpr ⟨?_, ih _⟩
      intro x hx
      have := dailyGo_mem_bounds t1 n _ x hx
      omega
    · simp [dailyGo, if_neg hle]

/-- Completeness: with enough fuel, every business day (weekday ≤ 4) in
`[t, t1]` is emitted. -/
theorem dailyGo_complete (t1 : Nat) :
    ∀ fuel t B, t1 + 1 - t ≤ fuel → t ≤ B → B ≤ t1 → weekday B ≤ 4 →
      B ∈ dailyGo t1 fuel t := by
  intro fuel
  induction fuel with
  | zero => intro t B hf h1 h2 _; omega
  | succ n ih =>
    intro t B hf h1 h2 hB
    have hle : t ≤ t1 := by omega
    simp only [dailyGo, if_pos hle, List.mem_cons]
    set w := weekday t with hw
    by_cases hwk : w = 5 ∨ w = 6
    · rw [if_pos hwk]
      -- t is a weekend day, the loop advances to the following Monday
      by_cases hEq : B = t + (7 - w)
      · exact Or.inl hEq
      · refine Or.inr (ih _ B ?_ ?_ h2 hB)
        · omega
        · -- every day of [t, t + (7 - w)) is a Saturday or a Sunday
          simp only [weekday, hw] at *
          omega
    · rw [if_neg hwk]
      by_cases hEq : B = t
      · exact Or.inl hEq
      · refine Or.inr (ih _ B ?_ ?_ h2 hB)
        · omega
        · omega

/-! ## Strings: strftime, the sqlite datetime adapter, and strptime -/

/-- Zero-pad a numeral to width 2 (`%m`, `%d`). -/
def pad2 (n : Nat) : String :=
  if n < 10 then "0" ++ toString n else toString n

/-- Zero-pad a numeral to width 4 (`%Y`). -/
def pad4 (n : Nat) : String :=
  if n < 10 then "000" ++ toString n
  else if n < 100 then "00" ++ toString n
  else if n < 1000 then "0" ++ toString n
  else toString n

/-- `t.strftime(%Y-%m-%d)`. -/
def fmtYmd (d : Date) : String :=
  pad4 d.year ++ "-" ++ pad2 d.month ++ "-" ++ pad2 d.day

/-- The sqlite3 default `datetime.datetime` adapter, `val.isoformat(" ")`,
applied to a midnight datetime (every datetime this program binds into SQL
carries a zero time-of-day). -/
def adaptDatetime (d : Date) : String :=
  fmtYmd d ++ " 00:00:00"

/-- Split a character list at every occurrence of `sep`
(`str.split("-")` on a one-byte separator). -/
def splitOnChar (sep : Char) : List Char → List (List Char)
  | [] => [[]]
  | c :: cs =>
    if c = sep then [] :: splitOnChar sep cs
    else
      match splitOnChar sep cs with
      | [] => [[c]]
      | p :: ps => (c :: p) :: ps

/-- A non-empty all-decimal-digit character list, as a numeral. -/
def digitsToNat? (l : List Char) : Option Nat :=
  if l ≠ [] ∧ l.all Char.isDigit then
    some (l.foldl (fun a c => a * 10 + (c.toNat - 48)) 0)
  else none

/-- `datetime.strptime(s, %Y-%m-%d)`, per-component: three dash-separated
decimal fields of bounded width, month and day validated against the
calendar; any unconsumed trailing text (e.g. a time-of-day suffix) is a
failure (`ValueError: unconverted data remains`). -/
def strptimeYmd (s : String) : Option Date :=
  match splitOnChar '-' s.data with
  | [ys, ms, ds] =>
    match digitsToNat? ys, digitsToNat? ms, digitsToNat? ds with
    | some y, some m, some d =>
      if ys.length ≤ 4 ∧ ms.length ≤ 2 ∧ ds.length ≤ 2 ∧
         1 ≤ y ∧ y ≤ 9999 ∧ 1 ≤ m ∧ m ≤ 12 ∧ 1 ≤ d ∧ d ≤ daysInMonth y m
      then some ⟨y, m, d⟩ else none
    | _, _, _ => none
  | _ => none

/-- Lexicographic order on character lists: how sqlite compares two TEXT
values (byte order; identical to character order on this ASCII data). -/
def charsLt : List Char → List Char → Bool
  | [], [] => false
  | [], _ :: _ => true
  | _ :: _, [] => false
  | a :: as, b :: bs =>
    if a < b then true else if b < a then false else charsLt as bs

/-- sqlite `<` on two TEXT values. -/
def textLt (a b : String) : Bool :=
  charsLt a.data b.data

/-! ## Python values and exceptions -/

/-- A decoded JSON value, doubling as the relevant fragment of Python
values: `json.loads` maps JSON null to Python `None`, which is also what
`dict.get` returns on a missing key, so `.null` models both. -/
inductive JVal where
  | null
  | bool (b : Bool)
  | num (q : Rat)
  | str (s : String)
  | arr (elems : List JVal)
  | obj (fields : List (String × JVal))

/-- The exceptions this program can raise.  Dynamic message fragments
(interpolated reprs) are elided from the message strings. -/
inductive PyErr where
  | valueError (msg : String)
  | typeError (msg : String)
  | indexError
  | interfaceError
  | integrityError
deriving DecidableEq, Repr

/-- `d.get(k)` on a Python dict: the bound value, or `None` when absent. -/
def dictGet (fields : List (String × JVal)) (k : String) : JVal :=
  match fields.find? (fun p => p.1 == k) with
  | some p => p.2
  | none => .null

/-- Iterating a Python value (the `for row in rows` loop, which drives
`map(Row, body)`): lists yield their elements, strings their characters,
dicts their keys; `None` and numbers are not iterable (`TypeError`). -/
def pyIter : JVal → Except PyErr (List JVal)
  | .arr xs => .ok xs
  | .str s => .ok (s.data.map fun c => .str (String.mk [c]))
  | .obj kvs => .ok (kvs.map fun p => .str p.1)
  | _ => .error (.typeError "object is not iterable")

/-- `cols[i]` subscription: lists and strings index, everything else in
this program's reach raises `TypeError`; an out-of-range index raises
`IndexError`. -/
def getItem (cols : JVal) (i : Nat) : Except PyErr JVal :=
  match cols with
  | .arr xs =>
    match xs.get? i with
    | some v => .ok v
    | none => .error .indexError
  | .str s =>
    match s.data.get? i with
    | some c => .ok (.str (String.mk [c]))
    | none => .error .indexError
  | _ => .error (.typeError "object is not subscriptable")

/-- Truncation toward zero, the conversion `int()` applies to a number. -/
def ratTrunc (q : Rat) : Int :=
  if q < 0 then -(Int.floor (-q)) else Int.floor q

/-- The decimal core of Python `float(str)`: optional sign, integer part,
optional fraction.  (Exponents and specials are omitted; no theorem below
evaluates this branch.) -/
def parseFloatLit (s : String) : Option Rat :=
  let sgn : Rat × String :=
    if s.startsWith "-" then (-1, s.drop 1)
    else if s.startsWith "+" then (1, s.drop 1) else (1, s)
  match sgn.2.splitOn "." with
  | [a] => (a.toNat?).map fun n => sgn.1 * (n : Rat)
  | [a, b] =>
    if a.isEmpty && b.isEmpty then none
    else
      let ip : Option Nat := if a.isEmpty then some 0 else a.toNat?
      let fp : Option (Nat × Nat) :=
        if b.isEmpty then some (0, 1)
        else (b.toNat?).map fun n => (n, 10 ^ b.length)
      match ip, fp with
      | some i, some f => some (sgn.1 * ((i : Rat) + (f.1 : Rat) / (f.2 : Rat)))
      | _, _ => none
  | _ => none

/-- Python `float(x)`. -/
def pyFloat : JVal → Except PyErr Rat
  | .num q => .ok q
  | .bool b => .ok (if b then 1 else 0)
  | .str s =>
    match parseFloatLit s.trim with
    | some q => .ok q
    | none => .error (.valueError "could not convert string to float")
  | _ => .error (.typeError "float argument must be a string or a real number")

/-- Python `int(x)`. -/
def pyInt : JVal → Except PyErr Int
  | .num q => .ok (ratTrunc q)
  | .bool b => .ok (if b then 1 else 0)
  | .str s =>
    match s.trim.toInt? with
    | some n => .ok n
    | none => .error (.valueError "invalid literal for int with base 10")
  | _ => .error (.typeError "int argument must be a string or a number")

/-- `strptime(cols[0], %Y-%m-%d)` including the type check strptime
performs on its first argument. -/
def strptimeArg (v : JVal) : Except PyErr Date :=
  match v with
  | .str s =>
    match strptimeYmd s with
    | some d => .ok d
    | none => .error (.valueError "unconverted data remains")
  | _ => .error (.typeError "strptime argument 1 must be str")

/-- A constructed `Row`: `Row.__init__` fields after conversion. -/
structure RowV where
  date : Date
  name : JVal
  activity : Rat
  sentiment : Int

/-- `Row.__init__(cols)`, in source order:
`strptime(cols[0])`, `cols[1]` unconverted, `float(cols[2])`, `int(cols[3])`. -/
def rowInit (cols : JVal) : Except PyErr RowV := do
  let c0 ← getItem cols 0
  let d ← strptimeArg c0
  let c1 ← getItem cols 1
  let c2 ← getItem cols 2
  let a ← pyFloat c2
  let c3 ← getItem cols 3
  let sv ← pyInt c3
  pure ⟨d, c1, a, sv⟩

/-! ## The sqlite store

One table `rtat(date TEXT, ticker TEXT, activity REAL, sentiment INTEGER,
PRIMARY KEY (date, ticker))`, modelled as a list of rows in rowid order. -/

/-- A stored row of the `rtat` table. -/
structure Rec where
  date : String
  ticker : String
  activity : Rat
  sentiment : Int
deriving DecidableEq, Repr

/-- The `rtat` table in rowid order. -/
abbrev Store := List Rec

/-- Key equality on `(date, ticker)`, the primary key of `rtat`. -/
def keyEq (r : Rec) (d tk : String) : Bool :=
  r.date == d && r.ticker == tk

/-- `INSERT OR REPLACE INTO rtat`: the row holding the conflicting
`(date, ticker)` key (if any) is deleted and the fresh row is appended
with a fresh rowid. -/
def upsert (s : Store) (r : Rec) : Store :=
  s.filter (fun x => !keyEq x r.date r.ticker) ++ [r]

/-- The stored rows carrying a given `(date, ticker)` key,
`SELECT * FROM rtat WHERE date = ? AND ticker = ?`. -/
def rowsFor (s : Store) (d tk : String) : List Rec :=
  s.filter (fun x => keyEq x d tk)

/-- Binding a Python value into a column of TEXT affinity: strings pass
through, numbers and booleans are rendered as text, `None` violates the
NOT NULL constraint, aggregates are unsupported bind parameters.  (The
numeric rendering is approximate; no theorem below evaluates it.) -/
def sqliteText : JVal → Except PyErr String
  | .str s => .ok s
  | .num q => .ok (toString q)
  | .bool b => .ok (if b then "1" else "0")
  | .null => .error .integrityError
  | _ => .error .interfaceError

/-- The row `retail_track` binds for a parsed `Row`: the datetime goes
through the sqlite adapter `adaptDatetime`, the name through TEXT
affinity. -/
def recOfRow (r : RowV) : Except PyErr Rec := do
  let tk ← sqliteText r.name
  pure ⟨adaptDatetime r.date, tk, r.activity, r.sentiment⟩

/-- The per-row loop of `retail_track`: construct `Row(cols)` for the next
element of the lazy `map(Row, body)`, execute the `INSERT OR REPLACE`,
continue; the first exception aborts the loop. -/
def persistRows (store : Store) : List JVal → Except PyErr Store
  | [] => .ok store
  | c :: cs =>
    match rowInit c with
    | .error e => .error e
    | .ok r =>
      match recOfRow r with
      | .error e => .error e
      | .ok row => persistRows (upsert store row) cs

/-- The lexicographically largest TEXT value, `SELECT MAX(date) ...`:
sqlite compares TEXT by byte order, which on this data agrees with the
character order of `String.lt`. -/
def maxText (ds : List String) : Option String :=
  ds.foldl
    (fun acc d =>
      match acc with
      | none => some d
      | some m => some (if textLt m d then d else m))
    none

/-- `Client.last_update(ticker)`:

    SELECT MAX(date) FROM rtat WHERE ticker = ?
    ... return t0 if NULL else datetime.strptime(result, %Y-%m-%d)
-/
def last_update (s : Store) (ticker : String) : Except PyErr Date :=
  let ds := (s.filter (fun r => r.ticker == ticker)).map (·.date)
  match maxText ds with
  | none => .ok t0Date
  | some txt =>
    match strptimeYmd txt with
    | some d => .ok d
    | none => .error (.valueError "unconverted data remains")

/-- One query of the `Client.needs_update` loop:

    SELECT ticker, COUNT(ticker) FROM rtat WHERE date > ?

An aggregate query without GROUP BY returns exactly one result row; the
bare `ticker` column takes its value from an unspecified matching row,
modelled here as the first one in rowid order (every theorem below that
corrects the spec is insensitive to this choice).  The cutoff datetime is
bound through the sqlite adapter and compared against the TEXT dates. -/
def needsUpdateOne (s : Store) (cutoff : Date) : List String :=
  match s.filter (fun r => textLt (adaptDatetime cutoff) r.date) with
  | [] => []
  | r :: _ => [r.ticker]

/-- `Client.needs_update(timestamps)` after its input normalisation: one
query per timestamp, yielding the bare ticker whenever the count is
positive. -/
def needs_update (s : Store) (cutoffs : List Date) : List String :=
  (cutoffs.map (needsUpdateOne s)).flatten

/-! ## `Client.retail_track` -/

/-- One GET against `{BASE_URL}/NDAQ/RTAT`, with its comma-joined query
parameters. -/
structure Request where
  dateParam : String
  tickerParam : String
  apiKey : String
deriving DecidableEq, Repr

/-- A `retail_track` call: the requests it issued (zero or one) and the
store it left behind, or the exception it raised. -/
structure TrackOut where
  requests : List Request
  result : Except PyErr Store

/-- The envelope checks and the persist loop of `retail_track`, applied to
the decoded JSON of the response:

    body = json.loads(resp)
    if isinstance(body, dict): body = body.get('datatable')
    else: raise ValueError(...)
    if isinstance(body, dict): body = body.get('data')
    else: raise ValueError(...)
    rows = map(Row, body)
    for row in rows: INSERT OR REPLACE ...

Note the source checks `isinstance` on the PARENT before each `.get`, so a
dict missing `datatable` is caught by the second check (with the message
about `data`), while a `datatable` dict missing `data` is not caught at
all: `body` is then `None` and the `for` loop raises `TypeError`. -/
def trackParse (store : Store) (body : JVal) : Except PyErr Store :=
  match body with
  | .obj kvs =>
    match dictGet kvs "datatable" with
    | .obj kvs2 =>
      match pyIter (dictGet kvs2 "data") with
      | .error e => .error e
      | .ok rows => persistRows store rows
    | _ => .error (.valueError "missing data in response datatable")
  | _ => .error (.valueError "missing datatable in response")

/-- `Client.retail_track(tickers, timestamps)`.  The upstream is modelled
by `respOf`, mapping the issued request to the decoded JSON body of the
response.  The source checks only that the date list is non-empty; the
ticker list is serialized unchecked. -/
def retail_track (store : Store) (apiKey : String) (tickers : List String)
    (timestamps : List Date) (respOf : Request → JVal) : TrackOut :=
  let dates := timestamps.map fmtYmd
  if dates.length ≤ 0 then
    ⟨[], .error (.valueError "no dates provided.")⟩
  else
    let req : Request :=
      ⟨String.intercalate "," dates, String.intercalate "," tickers, apiKey⟩
    ⟨[req], trackParse store (respOf req)⟩

/-! ## The orchestrator (`main`) -/

/-- `itertools.batched(l, n)`: chunks of at most `n` in order, every chunk
non-empty and all but the last of size exactly `n`.  (Python raises on
`n < 1`; the program only calls this with its positive batch size.) -/
def batched (l : List α) (n : Nat) : List (List α) :=
  (List.range ((l.length + n - 1) / n)).map fun i => (l.drop (i * n)).take n

/-- An observable step of a `main` run: one coverage GET (with the list it
returned), or one RTAT fetch request. -/
inductive Ev where
  | covGet (tickers : List String)
  | fetch (req : Request)
deriving DecidableEq, Repr

/-- The inner loop of `main`:

    for tickers in batched(client.ticker_coverage(), batch_size):
        client.retail_track(tickers=tickers, timestamps=timestamps)

threading the store and stopping at the first exception. -/
def innerLoop (apiKey : String) (respOf : Request → JVal) (dchunk : List Date) :
    Store → List (List String) → List Ev × Except PyErr Store
  | store, [] => ([], .ok store)
  | store, tc :: rest =>
    let out := retail_track store apiKey tc dchunk respOf
    match out.result with
    | .error e => (out.requests.map Ev.fetch, .error e)
    | .ok s2 =>
      let next := innerLoop apiKey respOf dchunk s2 rest
      (out.requests.map Ev.fetch ++ next.1, next.2)

/-- The outer loop of `main`:

    for timestamps in batched(daily(t0, t1), batch_size):
        for tickers in batched(client.ticker_coverage(), batch_size): ...

`client.ticker_coverage()` performs a fresh HTTP GET at the top of every
outer iteration; the oracle `cov` gives the list that GET returns at
iteration `i`. -/
def outerLoop (apiKey : String) (bs : Nat) (respOf : Request → JVal)
    (cov : Nat → List String) :
    Nat → Store → List (List Date) → List Ev × Except PyErr Store
  | _, store, [] => ([], .ok store)
  | i, store, dc :: rest =>
    let c := cov i
    let inner := innerLoop apiKey respOf dc store (batched c bs)
    match inner.2 with
    | .error e => (Ev.covGet c :: inner.1, .error e)
    | .ok s2 =>
      let next := outerLoop apiKey bs respOf cov (i + 1) s2 rest
      (Ev.covGet c :: inner.1 ++ next.1, next.2)

/-- The fetch loop of `main`, parameterised by the business-day list
(`main` instantiates it with `daily(t0, t1)`) and the coverage and
response oracles. -/
def mainRun (apiKey : String) (bs : Nat) (respOf : Request → JVal)
    (cov : Nat → List String) (dates : List Date) (store : Store) :
    List Ev × Except PyErr Store :=
  outerLoop apiKey bs respOf cov 0 store (batched dates bs)

/-! ## Helper lemmas -/

theorem keyEq_self (r : Rec) : keyEq r r.date r.ticker = true := by
  simp [keyEq]

theorem filter_not_self (p : Rec → Bool) (l : List Rec) :
    (l.filter (fun x => !p x)).filter p = [] := by
  induction l with
  | nil => rfl
  | cons a l ih =>
    by_cases h : p a = true
    · simp [List.filter_cons, h, ih]
    · simp only [Bool.not_eq_true] at h
      simp [List.filter_cons, h, ih]

/-- After one upsert, the rows carrying the written key are exactly the
written row. -/
theorem rowsFor_upsert_self (s : Store) (r : Rec) :
    rowsFor (upsert s r) r.date r.ticker = [r] := by
  simp only [rowsFor, upsert, List.filter_append]
  rw [filter_not_self]
  simp [List.filter_cons, keyEq_self]

/-! ## C1 -/

/-- C1: store upsert is idempotent.  Writing `r1` then `r2` for the same
`(date, ticker)` key — in particular writing the same record twice —
leaves exactly one stored row for that key, and its values are those of
the second write. -/
theorem upsert_idempotent (s : Store) (r1 r2 : Rec)
    (_hd : r1.date = r2.date) (_ht : r1.ticker = r2.ticker) :
    rowsFor (upsert (upsert s r1) r2) r2.date r2.ticker = [r2] ∧
    (rowsFor (upsert (upsert s r1) r2) r2.date r2.ticker).length = 1 := by
  refine ⟨rowsFor_upsert_self _ r2, ?_⟩
  rw [rowsFor_upsert_self _ r2]
  rfl

/-- C1 witness: a concrete double write over a pre-existing row. -/
theorem upsert_idempotent_witness :
    rowsFor
      (upsert (upsert [⟨"2016-01-14 00:00:00", "AAPL", 2, 0⟩]
        ⟨"2016-01-15 00:00:00", "AAPL", 1, 1⟩) ⟨"2016-01-15 00:00:00", "AAPL", 3, -1⟩)
      "2016-01-15 00:00:00" "AAPL" = [⟨"2016-01-15 00:00:00", "AAPL", 3, -1⟩] :=
  (upsert_idempotent [⟨"2016-01-14 00:00:00", "AAPL", 2, 0⟩]
    ⟨"2016-01-15 00:00:00", "AAPL", 1, 1⟩ ⟨"2016-01-15 00:00:00", "AAPL", 3, -1⟩
    rfl rfl).1

/-! ## C2 -/

/-- C2: for every start and end, the business-day generator `daily` never
yields a Saturday (weekday 5) or a Sunday (weekday 6), and its output is
strictly increasing. -/
theorem daily_no_weekend_strictly_increasing (a b : Nat) :
    (∀ d ∈ daily a b, weekday d ≠ 5 ∧ weekday d ≠ 6) ∧
    List.Pairwise (· < ·) (daily a b) := by
  constructor
  · intro d hd
    have h := dailyGo_mem_bounds b _ _ _ hd
    exact ⟨h.2.2.1, h.2.2.2⟩
  · exact dailyGo_pairwise b _ _

/-- C2 witness: the sequence from 2016-01-15 to 2016-01-20 (ordinals
735978 and 735983); 735981 = 2016-01-18 is one of its members. -/
theorem daily_no_weekend_strictly_increasing_witness :
    (weekday 735981 ≠ 5 ∧ weekday 735981 ≠ 6) ∧
    List.Pairwise (· < ·) (daily 735978 735983) :=
  ⟨(daily_no_weekend_strictly_increasing 735978 735983).1 735981 (by decide),
   (daily_no_weekend_strictly_increasing 735978 735983).2⟩

/-! ## C3 -/

/-- C3 counterexample: for start = end = 2016-01-16 (a Saturday), the
generator advances to Monday 2016-01-18 and yields it, so the emitted
date falls outside the inclusive range `[start, end]`, against the claim
that every emitted date lies within it. -/
theorem daily_range_counterexample :
    Date.toOrdinal ⟨2016, 1, 18⟩ ∈
      daily (Date.toOrdinal ⟨2016, 1, 16⟩) (Date.toOrdinal ⟨2016, 1, 16⟩) ∧
    ¬(Date.toOrdinal ⟨2016, 1, 18⟩ ≤ Date.toOrdinal ⟨2016, 1, 16⟩) := by
  decide

/-- C3 amended: every business day of `[start, end]` is emitted and every
emitted date is at least `start`, but the upper bound is only
`end + 2 days` (a trailing weekend is rounded up to the Monday after
`end`); the concrete sequence for 2016-01-15 .. 2016-01-20 is exactly
[01-15, 01-18, 01-19, 01-20]. -/
theorem daily_business_days_amended (a b : Nat) :
    (∀ d, a ≤ d → d ≤ b → weekday d ≤ 4 → d ∈ daily a b) ∧
    (∀ d ∈ daily a b, a ≤ d ∧ d ≤ b + 2) ∧
    daily (Date.toOrdinal ⟨2016, 1, 15⟩) (Date.toOrdinal ⟨2016, 1, 20⟩) =
      [Date.toOrdinal ⟨2016, 1, 15⟩, Date.toOrdinal ⟨2016, 1, 18⟩,
       Date.toOrdinal ⟨2016, 1, 19⟩, Date.toOrdinal ⟨2016, 1, 20⟩] := by
  refine ⟨?_, ?_, by decide⟩
  · intro d h1 h2 h3
    exact dailyGo_complete b _ a d (by omega) h1 h2 h3
  · intro d hd
    have h := dailyGo_mem_bounds b _ _ _ hd
    exact ⟨h.1, h.2.1⟩

/-- C3 witness: the amended statement at start 2016-01-15, end 2016-01-20
and the business day 2016-01-19 (ordinal 735982). -/
theorem daily_business_days_amended_witness :
    735982 ∈ daily 735978 735983 ∧ (735978 ≤ 735982 ∧ 735982 ≤ 735983 + 2) ∧
    daily (Date.toOrdinal ⟨2016, 1, 15⟩) (Date.toOrdinal ⟨2016, 1, 20⟩) =
      [Date.toOrdinal ⟨2016, 1, 15⟩, Date.toOrdinal ⟨2016, 1, 18⟩,
       Date.toOrdinal ⟨2016, 1, 19⟩, Date.toOrdinal ⟨2016, 1, 20⟩] :=
  ⟨(daily_business_days_amended 735978 735983).1 735982 (by decide) (by decide)
     (by decide),
   (daily_business_days_amended 735978 735983).2.1 735982
     ((daily_business_days_amended 735978 735983).1 735982 (by decide) (by decide)
       (by decide)),
   (daily_business_days_amended 735978 735983).2.2⟩

/-! ## C4 -/

/-- C4 counterexample: for start = 2016-01-16 > end = 2016-01-15 the
generator does not fail with an invalid-range error — the `while` guard
is immediately false, the generator raises nothing and returns the
normal empty sequence. -/
theorem daily_invalid_range_counterexample :
    daily (Date.toOrdinal ⟨2016, 1, 16⟩) (Date.toOrdinal ⟨2016, 1, 15⟩) = [] := by
  decide

/-- C4 amended: for every start > end the generator yields the empty
sequence (without error), and in particular never loops forever. -/
theorem daily_invalid_range_amended (a b : Nat) (h : b < a) : daily a b = [] := by
  unfold daily
  have hz : b + 1 - a = 0 := by omega
  rw [hz]
  rfl

/-- C4 witness: the amended statement at start 2016-01-16, end 2016-01-15. -/
theorem daily_invalid_range_amended_witness :
    735978 < 735979 ∧ daily 735979 735978 = [] :=
  ⟨by decide, daily_invalid_range_amended 735979 735978 (by decide)⟩

/-! ## Shared concrete oracles -/

/-- An upstream that answers every request with exactly one row, echoing
the (singleton) date and ticker parameters of the request, activity 1 and
sentiment 1. -/
def respDiag : Request → JVal := fun r =>
  .obj [("datatable", .obj [("data",
    .arr [.arr [.str r.dateParam, .str r.tickerParam, .num 1, .num 1]])])]

/-- An upstream whose well-formed envelope carries no rows. -/
def respEmptyData : Request → JVal := fun _ =>
  .obj [("datatable", .obj [("data", .arr [])])]

/-! ## C5 -/

/-- C5: `last_update` on a ticker with no rows returns the sentinel `t0`,
but on a ticker whose row was stored by `retail_track` it does NOT return
the stored date: the write path binds the datetime through the sqlite
adapter as `2016-01-20 00:00:00`, and the read path parses `MAX(date)`
with the format `%Y-%m-%d`, which chokes on the time-of-day suffix
(`ValueError: unconverted data remains`) instead of returning 2016-01-20. -/
theorem last_update_adapter_mismatch :
    last_update [] "AAPL" = .ok t0Date ∧
    (retail_track [] "key" ["AAPL"] [⟨2016, 1, 20⟩] respDiag).result =
      .ok [⟨"2016-01-20 00:00:00", "AAPL", 1, 1⟩] ∧
    last_update [⟨"2016-01-20 00:00:00", "AAPL", 1, 1⟩] "AAPL" =
      .error (.valueError "unconverted data remains") :=
  ⟨rfl, rfl, rfl⟩

/-! ## C6 -/

/-- When the date list is non-empty, `retail_track` always issues exactly
one request, with comma-joined date and ticker parameters. -/
theorem retail_track_requests_eq (store : Store) (key : String)
    (tks : List String) (ts : List Date) (respOf : Request → JVal) (h : ts ≠ []) :
    retail_track store key tks ts respOf =
      ⟨[⟨String.intercalate "," (ts.map fmtYmd), String.intercalate "," tks, key⟩],
       trackParse store (respOf ⟨String.intercalate "," (ts.map fmtYmd),
         String.intercalate "," tks, key⟩)⟩ := by
  have hlen : ¬((ts.map fmtYmd).length ≤ 0) := by
    simp only [List.length_map]
    cases ts with
    | nil => exact absurd rfl h
    | cons a l => simp
  simp only [retail_track, if_neg hlen]

/-- C6 counterexample: called with an EMPTY ticker set (and one date), the
fetcher does not fail with an invalid-argument error: it issues the
network request, with an empty `ticker` parameter, and returns normally. -/
theorem retail_track_empty_tickers_counterexample :
    (retail_track [] "key" [] [⟨2016, 1, 15⟩] respEmptyData).requests =
      [⟨"2016-01-15", "", "key"⟩] ∧
    (retail_track [] "key" [] [⟨2016, 1, 15⟩] respEmptyData).result = .ok [] :=
  ⟨rfl, rfl⟩

/-- C6 amended: an empty DATE set fails with `ValueError` before any
request is issued, but an empty ticker set is not rejected — the request
goes out with an empty `ticker` query parameter. -/
theorem retail_track_empty_args_amended (store : Store) (key : String)
    (tks : List String) (ts : List Date) (respOf : Request → JVal) :
    (retail_track store key tks [] respOf).requests = [] ∧
    (retail_track store key tks [] respOf).result =
      .error (.valueError "no dates provided.") ∧
    (ts ≠ [] → (retail_track store key [] ts respOf).requests =
      [⟨String.intercalate "," (ts.map fmtYmd), "", key⟩]) := by
  refine ⟨rfl, rfl, fun h => ?_⟩
  rw [retail_track_requests_eq store key [] ts respOf h]
  rfl

/-- C6 witness: the amended statement at one concrete date. -/
theorem retail_track_empty_args_amended_witness :
    (retail_track [] "key" ["A"] [] respDiag).result =
      .error (.valueError "no dates provided.") ∧
    (retail_track [] "key" [] [⟨2016, 1, 15⟩] respDiag).requests =
      [⟨"2016-01-15", "", "key"⟩] :=
  ⟨(retail_track_empty_args_amended [] "key" ["A"] [⟨2016, 1, 15⟩] respDiag).2.1,
   (retail_track_empty_args_amended [] "key" ["A"] [⟨2016, 1, 15⟩] respDiag).2.2
     (by decide)⟩

/-! ## C7 -/

/-- C7: the envelope checks do not uniformly produce a malformed-response
`ValueError`.  A non-dict body and a dict missing `datatable` do raise
`ValueError` (the latter with the message about `data`, since the source
checks `isinstance` on the parent before each `.get`), but a `datatable`
dict missing the `data` key slips through both checks: `body` becomes
`None` and the row loop crashes with `TypeError` (NoneType is not
iterable); a row of wrong arity crashes with `IndexError`. -/
theorem retail_track_missing_data_crash :
    (retail_track [] "key" ["A"] [⟨2016, 1, 15⟩]
        (fun _ => .obj [("datatable", .obj [("columns", .arr [])])])).result =
      .error (.typeError "object is not iterable") ∧
    (retail_track [] "key" ["A"] [⟨2016, 1, 15⟩] (fun _ => .arr [])).result =
      .error (.valueError "missing datatable in response") ∧
    (retail_track [] "key" ["A"] [⟨2016, 1, 15⟩] (fun _ => .obj [])).result =
      .error (.valueError "missing data in response datatable") ∧
    (retail_track [] "key" ["A"] [⟨2016, 1, 15⟩]
        (fun _ => .obj [("datatable",
          .obj [("data", .arr [.arr [.str "2016-01-15"]])])])).result =
      .error .indexError :=
  ⟨rfl, rfl, rfl, rfl⟩

/-! ## C8 -/

/-- A store with rows for two tickers on the same (new) date. -/
def sC8 : Store :=
  [⟨"2016-01-20 00:00:00", "A", 1, 1⟩, ⟨"2016-01-20 00:00:00", "B", 1, 1⟩]

/-- C8 counterexample: with rows newer than the cutoff for both tickers A
and B, `needs_update` yields only one ticker — the bare-column aggregate
query returns a single row per cutoff — so it is not the set of all
tickers having a newer row: B qualifies but is not returned. -/
theorem needs_update_set_counterexample :
    needs_update sC8 [⟨2016, 1, 15⟩] = ["A"] ∧
    (∃ r ∈ sC8, r.ticker = "B" ∧
      textLt (adaptDatetime ⟨2016, 1, 15⟩) r.date = true) ∧
    "B" ∉ needs_update sC8 [⟨2016, 1, 15⟩] := by
  refine ⟨rfl, ⟨⟨"2016-01-20 00:00:00", "B", 1, 1⟩, by decide, rfl, rfl⟩, by decide⟩

/-- C8 amended: for a single cutoff, `needs_update` yields nothing when no
stored row is newer than the cutoff, and yields exactly one ticker — the
ticker of some row newer than the cutoff — when at least one such row
exists. -/
theorem needs_update_amended (s : Store) (c : Date) :
    ((∀ r ∈ s, textLt (adaptDatetime c) r.date = false) →
      needs_update s [c] = []) ∧
    ((∃ r ∈ s, textLt (adaptDatetime c) r.date = true) →
      ∃ r ∈ s, textLt (adaptDatetime c) r.date = true ∧
        needs_update s [c] = [r.ticker]) := by
  have hnu : needs_update s [c] = needsUpdateOne s c := by
    simp [needs_update]
  constructor
  · intro hall
    rw [hnu]
    unfold needsUpdateOne
    have hf : s.filter (fun r => textLt (adaptDatetime c) r.date) = [] := by
      rw [List.filter_eq_nil_iff]
      intro a ha
      simp [hall a ha]
    rw [hf]
  · rintro ⟨r0, hr0, hp⟩
    cases hf : s.filter (fun r => textLt (adaptDatetime c) r.date) with
    | nil =>
      exact absurd hp (by simpa using List.filter_eq_nil_iff.mp hf r0 hr0)
    | cons rh rt =>
      have hmem : rh ∈ s.filter (fun r => textLt (adaptDatetime c) r.date) := by
        rw [hf]; exact List.mem_cons_self _ _
      rw [List.mem_filter] at hmem
      refine ⟨rh, hmem.1, hmem.2, ?_⟩
      rw [hnu]
      unfold needsUpdateOne
      rw [hf]

/-- C8 witness: the amended statement on `sC8`, with a cutoff newer than
every row (first half) and a cutoff older than both rows (second half). -/
theorem needs_update_amended_witness :
    needs_update sC8 [⟨2016, 2, 15⟩] = [] ∧
    (∃ r ∈ sC8, textLt (adaptDatetime ⟨2016, 1, 15⟩) r.date = true ∧
      needs_update sC8 [⟨2016, 1, 15⟩] = [r.ticker]) :=
  ⟨(needs_update_amended sC8 ⟨2016, 2, 15⟩).1 (by decide),
   (needs_update_amended sC8 ⟨2016, 1, 15⟩).2
     ⟨⟨"2016-01-20 00:00:00", "A", 1, 1⟩, by decide, rfl⟩⟩

/-! ## C9 -/

/-- A coverage endpoint that always returns the universe {A, B}. -/
def cov2 : Nat → List String := fun _ => ["A", "B"]

/-- The four rows a full 2-dates x 2-tickers run against `respDiag`
stores. -/
def storeC9 : Store :=
  [⟨"2016-01-15 00:00:00", "A", 1, 1⟩, ⟨"2016-01-15 00:00:00", "B", 1, 1⟩,
   ⟨"2016-01-18 00:00:00", "A", 1, 1⟩, ⟨"2016-01-18 00:00:00", "B", 1, 1⟩]

/-- Recognises an RTAT fetch event. -/
def isFetch : Ev → Bool := fun e =>
  match e with
  | .fetch _ => true
  | _ => false

/-- C9: with tickers {A, B}, dates {2016-01-15, 2016-01-18} and batch size
1, the orchestrator issues exactly 4 fetch calls — outer loop over
date-chunks, inner loop over ticker-chunks, in that deterministic order —
and (the upstream returning full data) ends with exactly 4 stored rows; a
re-run from that store upserts the same rows without duplication. -/
theorem mainRun_two_by_two_batches :
    (mainRun "key" 1 respDiag cov2 [⟨2016, 1, 15⟩, ⟨2016, 1, 18⟩] []).1 =
      [.covGet ["A", "B"],
       .fetch ⟨"2016-01-15", "A", "key"⟩, .fetch ⟨"2016-01-15", "B", "key"⟩,
       .covGet ["A", "B"],
       .fetch ⟨"2016-01-18", "A", "key"⟩, .fetch ⟨"2016-01-18", "B", "key"⟩] ∧
    ((mainRun "key" 1 respDiag cov2 [⟨2016, 1, 15⟩, ⟨2016, 1, 18⟩] []).1.countP
      isFetch) = 4 ∧
    (mainRun "key" 1 respDiag cov2 [⟨2016, 1, 15⟩, ⟨2016, 1, 18⟩] []).2 =
      .ok storeC9 ∧
    storeC9.length = 4 ∧
    (mainRun "key" 1 respDiag cov2 [⟨2016, 1, 15⟩, ⟨2016, 1, 18⟩] storeC9).2 =
      .ok storeC9 :=
  ⟨rfl, rfl, rfl, rfl, rfl⟩

/-! ## C10 -/

/-- The request `retail_track` builds from a date chunk and a ticker
chunk. -/
def fetchReq (key : String) (dc : List Date) (tc : List String) : Request :=
  ⟨String.intercalate "," (dc.map fmtYmd), String.intercalate "," tc, key⟩

/-- `retail_track_requests_eq` restated through `fetchReq`. -/
theorem retail_track_fetchReq (store : Store) (key : String) (tks : List String)
    (ts : List Date) (respOf : Request → JVal) (h : ts ≠ []) :
    retail_track store key tks ts respOf =
      ⟨[fetchReq key ts tks], trackParse store (respOf (fetchReq key ts tks))⟩ :=
  retail_track_requests_eq store key tks ts respOf h

/-- Number of coverage GETs in a trace. -/
def countCov (evs : List Ev) : Nat :=
  evs.countP fun e =>
    match e with
    | .covGet _ => true
    | _ => false

/-- Every chunk `itertools.batched` produces is non-empty. -/
theorem batched_ne_nil (l : List α) (n : Nat) :
    ∀ c ∈ batched l n, c ≠ [] := by
  intro c hc
  simp only [batched, List.mem_map, List.mem_range] at hc
  rcases hc with ⟨i, hi, rfl⟩
  rcases Nat.eq_zero_or_pos n with hn | hn
  · subst hn
    simp [Nat.div_zero] at hi
  · have h1 : i + 1 ≤ (l.length + n - 1) / n := hi
    have h2 : (i + 1) * n ≤ l.length + n - 1 := (Nat.le_div_iff_mul_le hn).mp h1
    have h3 : i * n < l.length := by
      have hs : (i + 1) * n = i * n + n := Nat.succ_mul i n
      omega
    have hlen : 0 < ((l.drop (i * n)).take n).length := by
      rw [List.length_take, List.length_drop]
      omega
    exact List.ne_nil_of_length_pos hlen

/-- On a successful inner loop, the trace is one fetch per ticker chunk,
in order. -/
theorem innerLoop_trace (key : String) (respOf : Request → JVal)
    (dc : List Date) (hdc : dc ≠ []) :
    ∀ tcs store s2, (innerLoop key respOf dc store tcs).2 = .ok s2 →
      (innerLoop key respOf dc store tcs).1 =
        tcs.map fun tc => Ev.fetch (fetchReq key dc tc) := by
  intro tcs
  induction tcs with
  | nil => intro store s2 _; rfl
  | cons tc rest ih =>
    intro store s2 h
    simp only [innerLoop] at h ⊢
    rw [retail_track_fetchReq store key tc dc respOf hdc] at h ⊢
    cases htp : trackParse store (respOf (fetchReq key dc tc)) with
    | error e =>
      rw [htp] at h
      dsimp only at h
      exact Except.noConfusion h
    | ok s3 =>
      rw [htp] at h
      dsimp only at h ⊢
      rw [ih s3 s2 h]
      rfl

/-- On a successful outer loop, the trace is, per date chunk at iteration
`i`: one coverage GET returning `cov i`, then one fetch per chunk of
`cov i`, each request built from this date chunk and that ticker chunk. -/
theorem outerLoop_trace (key : String) (bs : Nat) (respOf : Request → JVal)
    (cov : Nat → List String) :
    ∀ dcs i store s2, (∀ dc ∈ dcs, dc ≠ []) →
      (outerLoop key bs respOf cov i store dcs).2 = .ok s2 →
      (outerLoop key bs respOf cov i store dcs).1 =
        (dcs.enumFrom i).flatMap fun p =>
          Ev.covGet (cov p.1) ::
            (batched (cov p.1) bs).map fun tc => Ev.fetch (fetchReq key p.2 tc) := by
  intro dcs
  induction dcs with
  | nil => intro i store s2 _ _; rfl
  | cons dc rest ih =>
    intro i store s2 hne h
    simp only [outerLoop] at h ⊢
    cases hin : (innerLoop key respOf dc store (batched (cov i) bs)).2 with
    | error e =>
      rw [hin] at h
      dsimp only at h
      exact Except.noConfusion h
    | ok s3 =>
      rw [hin] at h
      dsimp only at h ⊢
      have hinner := innerLoop_trace key respOf dc (hne dc (List.mem_cons_self _ _))
        (batched (cov i) bs) store s3 hin
      rw [List.enumFrom_cons, List.flatMap_cons, List.cons_append]
      rw [hinner, ih (i + 1) s3 s2 (fun d hd => hne d (List.mem_cons_of_mem _ hd)) h]
      rfl

/-- The expected trace holds one coverage GET per date chunk. -/
theorem countCov_expected (key : String) (bs : Nat) (cov : Nat → List String) :
    ∀ (dcs : List (List Date)) (i : Nat),
      countCov ((dcs.enumFrom i).flatMap fun p =>
        Ev.covGet (cov p.1) ::
          (batched (cov p.1) bs).map fun tc => Ev.fetch (fetchReq key p.2 tc)) =
      dcs.length := by
  intro dcs
  induction dcs with
  | nil => intro i; rfl
  | cons dc rest ih =>
    intro i
    have hzero : List.countP
        (fun e => match e with | Ev.covGet _ => true | _ => false)
        ((batched (cov i) bs).map fun tc => Ev.fetch (fetchReq key dc tc)) = 0 := by
      rw [List.countP_eq_zero]
      intro a ha
      rcases List.mem_map.mp ha with ⟨tc, _, rfl⟩
      simp
    rw [List.enumFrom_cons, List.flatMap_cons]
    simp only [countCov] at ih ⊢
    simp [List.countP_cons, List.countP_append, hzero, ih (i + 1), List.length_cons]

/-- C10: on a run that succeeds, the full ticker coverage list is fetched
afresh at every date-chunk iteration: a run whose date range partitions
into D chunks issues exactly D coverage GETs (one per chunk, not one per
run), and the fetches of the i-th date chunk are built from the coverage
returned at iteration i. -/
theorem mainRun_coverage_per_date_chunk (key : String) (bs : Nat)
    (respOf : Request → JVal) (cov : Nat → List String) (dates : List Date)
    (store s2 : Store)
    (h : (mainRun key bs respOf cov dates store).2 = .ok s2) :
    (mainRun key bs respOf cov dates store).1 =
      ((batched dates bs).enumFrom 0).flatMap (fun p =>
        Ev.covGet (cov p.1) ::
          (batched (cov p.1) bs).map fun tc => Ev.fetch (fetchReq key p.2 tc)) ∧
    countCov (mainRun key bs respOf cov dates store).1 =
      (batched dates bs).length := by
  have hne := batched_ne_nil dates bs
  have ht := outerLoop_trace key bs respOf cov (batched dates bs) 0 store s2 hne h
  refine ⟨ht, ?_⟩
  have hc := countCov_expected key bs cov (batched dates bs) 0
  rw [show (mainRun key bs respOf cov dates store).1 =
    ((batched dates bs).enumFrom 0).flatMap (fun p =>
      Ev.covGet (cov p.1) ::
        (batched (cov p.1) bs).map fun tc => Ev.fetch (fetchReq key p.2 tc)) from ht]
  exact hc

/-- C10 witness: the two date chunks of the C9 scenario trigger two
coverage GETs, and the trace equals the expected per-chunk shape. -/
theorem mainRun_coverage_per_date_chunk_witness :
    (mainRun "key" 1 respDiag cov2 [⟨2016, 1, 15⟩, ⟨2016, 1, 18⟩] []).1 =
      ((batched ([⟨2016, 1, 15⟩, ⟨2016, 1, 18⟩] : List Date) 1).enumFrom 0).flatMap (fun p =>
        Ev.covGet (cov2 p.1) ::
          (batched (cov2 p.1) 1).map fun tc => Ev.fetch (fetchReq "key" p.2 tc)) ∧
    countCov (mainRun "key" 1 respDiag cov2 [⟨2016, 1, 15⟩, ⟨2016, 1, 18⟩] []).1 =
      (batched ([⟨2016, 1, 15⟩, ⟨2016, 1, 18⟩] : List Date) 1).length :=
  mainRun_coverage_per_date_chunk "key" 1 respDiag cov2
    [⟨2016, 1, 15⟩, ⟨2016, 1, 18⟩] [] storeC9 rfl
